import Mathlib

/-!
# Verification of the PGIS spatial density/interpolation core

A shallow embedding, over real arithmetic, of the computational core of the
PGIS application:

* the equirectangular projection (`latLngToMeters` / `metersToLatLng`),
* the Gaussian kernel and the weighted-KDE grid engine (`calculateWeightedKDE`
  in `src/utils/kde.js`, with boundary parsing `parseBoundary` and the
  ray-casting test `isPointInPolygon`),
* the grid normalization helper (`normalizeGrid`),
* the IDW estimator and the worker's boundary-masked grid scan
  (`idwInterpolate` / `isPointInBoundary` in the favoribility worker, which is
  textually identical to `quickIDW` / `isPointInBoundary` in
  `FavoribilityLayer.jsx`).

JavaScript numbers are modelled as real numbers (`ℝ`); JavaScript `null` /
`undefined` grid entries are modelled as `Option.none`.  The engine's
self-recursive grid-coarsening call is modelled with an explicit fuel
parameter counting the number of calls allowed: a result of `none` means the
computation needed more calls than the fuel permitted.
-/

open scoped Classical

namespace PGIS

/-- A weighted input point (`{lat, lng, weight}` record); `kde.js` callers
build these from vote records. -/
structure WPoint where
  lat : ℝ
  lng : ℝ
  weight : ℝ

/-- A point projected to meters, carrying its weight (the
`pointsInMeters` records of `calculateWeightedKDE`). -/
structure MPoint where
  x : ℝ
  y : ℝ
  weight : ℝ

/-- `TEHRAN_CENTER_LAT` in `kde.js`. -/
noncomputable def TEHRAN_CENTER_LAT : ℝ := 35.6892

/-- `TEHRAN_CENTER_LNG` in `kde.js`. -/
noncomputable def TEHRAN_CENTER_LNG : ℝ := 51.3890

/-- `latLngToMeters(lat, lng)` from `kde.js`: equirectangular projection
anchored at Tehran's center.  Returns `(x, y)` = `(lngMeters, latMeters)`. -/
noncomputable def latLngToMeters (lat lng : ℝ) : ℝ × ℝ :=
  ((lng - TEHRAN_CENTER_LNG) * 111320 * Real.cos (TEHRAN_CENTER_LAT * Real.pi / 180),
   (lat - TEHRAN_CENTER_LAT) * 111320)

/-- `metersToLatLng(x, y)` from `kde.js`.  Returns `(lat, lng)`. -/
noncomputable def metersToLatLng (x y : ℝ) : ℝ × ℝ :=
  (y / 111320 + TEHRAN_CENTER_LAT,
   x / (111320 * Real.cos (TEHRAN_CENTER_LAT * Real.pi / 180)) + TEHRAN_CENTER_LNG)

/-- `gaussianKernel(distance, bandwidth)` from `kde.js`:
`(1 / Math.sqrt(2 * Math.PI)) * Math.exp(-0.5 * u * u)` with
`u = distance / bandwidth`. -/
noncomputable def gaussianKernel (distance bandwidth : ℝ) : ℝ :=
  (1 / Real.sqrt (2 * Real.pi)) *
    Real.exp (-0.5 * (distance / bandwidth) * (distance / bandwidth))

/-- The standard Gaussian kernel `K(u) = (1/√(2π)) · e^(−u²/2)` exactly as the
spec (§4.3 step 6) writes it; compared against `gaussianKernel` from the code. -/
noncomputable def specGaussian (u : ℝ) : ℝ :=
  (1 / Real.sqrt (2 * Real.pi)) * Real.exp (-(u ^ 2) / 2)

/-- `normalizeGrid(gridData, min, max, newMin = 0, newMax = 1)` from `kde.js`.
When `max === min` the source maps *every* entry (`null` entries included) to
`newMin`; otherwise `null`/`undefined` entries are preserved and values are
rescaled affinely. -/
noncomputable def normalizeGrid (gridData : List (Option ℝ)) (min max : ℝ)
    (newMin : ℝ := 0) (newMax : ℝ := 1) : List (Option ℝ) :=
  if max = min then
    gridData.map (fun _ => some newMin)
  else
    gridData.map (fun v =>
      match v with
      | none => none
      | some value => some ((value - min) / (max - min) * (newMax - newMin) + newMin))

/-- The bounding box computed by `parseBoundary` (`{minLng, maxLng, minLat,
maxLat}`). -/
structure BBox where
  minLng : ℝ
  maxLng : ℝ
  minLat : ℝ
  maxLat : ℝ

/-- The record returned by `parseBoundary`: the single ring the engine will
ray-cast against, its bounding box, and the `isMulti` flag. -/
structure ParsedBoundary where
  coords : List (ℝ × ℝ)
  bbox : BBox
  isMulti : Bool

/-- A GeoJSON geometry as `kde.js` consumes it.  For `Polygon` the engine
reads `coordinates[i][0]`/`[i][1]` directly, i.e. it treats `coordinates` as
one flat ring of `[lng, lat]` pairs (the form the spec's §8 square example
uses); for `MultiPolygon` it reads `coordinates[0][0]`, a
polygon → ring → pair nesting. -/
inductive Geometry where
  | polygon (coordinates : List (ℝ × ℝ))
  | multiPolygon (coordinates : List (List (List (ℝ × ℝ))))

/-- A GeoJSON value as `parseBoundary` dispatches on it: a bare geometry, a
`Feature` (whose `geometry` may be absent), or a `FeatureCollection`. -/
inductive GeoJSON where
  | geometry (g : Geometry)
  | feature (geometry : Option Geometry)
  | featureCollection (features : List GeoJSON)

/-- The bounding-box loop of `parseBoundary`: fold the min/max updates over
the ring.  The source initializes with `±Infinity` and then processes every
vertex; for the nonempty rings the engine guards for this is the same as
seeding with the first vertex and folding over the rest (the `[]` case is
unreachable behind the `coords.length === 0` guard). -/
noncomputable def computeBBox : List (ℝ × ℝ) → BBox
  | [] => ⟨0, 0, 0, 0⟩
  | c :: rest =>
    rest.foldl
      (fun bb p =>
        ⟨if p.1 < bb.minLng then p.1 else bb.minLng,
         if p.1 > bb.maxLng then p.1 else bb.maxLng,
         if p.2 < bb.minLat then p.2 else bb.minLat,
         if p.2 > bb.maxLat then p.2 else bb.maxLat⟩)
      ⟨c.1, c.1, c.2, c.2⟩

/-- The `Polygon`/`MultiPolygon` tail of `parseBoundary`:
`coords = isMulti ? coordsArray[0][0] : coordsArray`, `null` when the
selected ring is missing or empty. -/
noncomputable def parseGeometry : Geometry → Option ParsedBoundary
  | .polygon coordinates =>
    if coordinates.isEmpty then none
    else some ⟨coordinates, computeBBox coordinates, false⟩
  | .multiPolygon coordinates =>
    if coordinates.isEmpty then none
    else
      let coords := (coordinates.headD []).headD []
      if coords.isEmpty then none
      else some ⟨coords, computeBBox coords, true⟩

/-- `parseBoundary(geoJSON)` from `kde.js`: unwrap `FeatureCollection` (first
feature only) and `Feature`, then parse the geometry. -/
noncomputable def parseBoundary : GeoJSON → Option ParsedBoundary
  | .geometry g => parseGeometry g
  | .feature none => none
  | .feature (some g) => parseGeometry g
  | .featureCollection [] => none
  | .featureCollection (f :: _) => parseBoundary f

/-- The edge pairs scanned by the ray-casting loops: index `i` is paired with
index `j = i - 1`, and index `0` with the last index. -/
noncomputable def ringEdges (coords : List (ℝ × ℝ)) : List ((ℝ × ℝ) × (ℝ × ℝ)) :=
  coords.zip (coords.getLastD (0, 0) :: coords)

/-- `isPointInPolygon(lat, lng, boundary)` from `kde.js`: bounding-box
rejection, then ray casting with near-horizontal edges (`|yj - yi| < 1e-10`)
skipped.  Edge endpoints are `(x, y) = (lng, lat)` pairs. -/
noncomputable def isPointInPolygon (lat lng : ℝ) (boundary : ParsedBoundary) : Bool :=
  if lng < boundary.bbox.minLng ∨ lng > boundary.bbox.maxLng ∨
      lat < boundary.bbox.minLat ∨ lat > boundary.bbox.maxLat then
    false
  else
    (ringEdges boundary.coords).foldl
      (fun inside e =>
        let xi := e.1.1
        let yi := e.1.2
        let xj := e.2.1
        let yj := e.2.2
        if |yj - yi| < 1e-10 then inside
        else if ((yi > lat) ≠ (yj > lat)) ∧ (lng < (xj - xi) * (lat - yi) / (yj - yi) + xi) then
          !inside
        else inside)
      false

/-- `isPointInBoundary(lat, lng, boundaryCoords)` from the favoribility worker
and `FavoribilityLayer.jsx`: plain ray casting over one ring, no bounding box
and no degenerate-edge skip (for a horizontal edge the first conjunct is
already false, so the division is irrelevant). -/
noncomputable def isPointInBoundary (lat lng : ℝ) (boundaryCoords : List (ℝ × ℝ)) : Bool :=
  (ringEdges boundaryCoords).foldl
    (fun inside e =>
      let xi := e.1.1
      let yi := e.1.2
      let xj := e.2.1
      let yj := e.2.2
      if ((yi > lat) ≠ (yj > lat)) ∧ (lng < (xj - xi) * (lat - yi) / (yj - yi) + xi) then
        !inside
      else inside)
    false

/-- The worker's per-cell boundary check (`for (const ring of boundaryCoords)
{ if (isPointInBoundary(...)) { inside = true; break } }`): a linear scan with
early exit. -/
noncomputable def insideRings (lat lng : ℝ) : List (List (ℝ × ℝ)) → Bool
  | [] => false
  | ring :: rest =>
    if isPointInBoundary lat lng ring then true else insideRings lat lng rest

/-- A point consumed by the IDW estimator (`{lat, lng, score}` records, built
by `extractHotspotPoints`). -/
structure IPoint where
  lat : ℝ
  lng : ℝ
  score : ℝ

/-- The accumulation loop of `idwInterpolate` (worker) / `quickIDW`
(`FavoribilityLayer.jsx`) — the two sources are textually identical.  Distances
are raw degree-space Euclidean distances; a distance below `0.0001` returns
that point's score immediately; otherwise the final statement is
`denominator > 0 ? numerator / denominator : 0`. -/
noncomputable def idwLoop (lat lng power : ℝ) :
    List IPoint → ℝ → ℝ → ℝ
  | [], numerator, denominator =>
    if denominator > 0 then numerator / denominator else 0
  | point :: rest, numerator, denominator =>
    let distance := Real.sqrt ((lat - point.lat) ^ 2 + (lng - point.lng) ^ 2)
    if distance < 0.0001 then point.score
    else
      idwLoop lat lng power rest
        (numerator + 1 / distance ^ power * point.score)
        (denominator + 1 / distance ^ power)

/-- `idwInterpolate(lat, lng, points, power = 2)` from the worker, identical
to `quickIDW` in `FavoribilityLayer.jsx`: `0` for a missing/empty point list,
otherwise the accumulation loop. -/
noncomputable def idwInterpolate (lat lng : ℝ) (points : List IPoint)
    (power : ℝ := 2) : ℝ :=
  if points.isEmpty then 0 else idwLoop lat lng power points 0 0

/-- The denominator the loop accumulates when no point is within epsilon:
`Σ 1 / d_i^power` (specification-side closed form, compared with the loop). -/
noncomputable def idwDenom (lat lng power : ℝ) (points : List IPoint) : ℝ :=
  (points.map
    (fun p => 1 / Real.sqrt ((lat - p.lat) ^ 2 + (lng - p.lng) ^ 2) ^ power)).sum

/-- The numerator the loop accumulates when no point is within epsilon:
`Σ (1 / d_i^power) * score_i` (specification-side closed form). -/
noncomputable def idwNumer (lat lng power : ℝ) (points : List IPoint) : ℝ :=
  (points.map
    (fun p =>
      1 / Real.sqrt ((lat - p.lat) ^ 2 + (lng - p.lng) ^ 2) ^ power * p.score)).sum

/-- The `bounds` record the worker receives (`{north, south, east, west}`). -/
structure WBounds where
  north : ℝ
  south : ℝ
  east : ℝ
  west : ℝ

/-- One cell pushed by the worker's `compute` handler. -/
structure Cell where
  lat : ℝ
  lng : ℝ
  latStep : ℝ
  lngStep : ℝ
  favorability : ℝ

/-- The worker's per-cell work for indices `(i, j)`: compute the sample
coordinates, test the point against every boundary ring (logical OR with
early exit), and either produce the cell with its IDW favorability or skip
it.  `none` models a cell the worker does not push. -/
noncomputable def workerCellValue (bounds : WBounds) (resolution : ℕ)
    (points : List IPoint) (boundaryCoords : List (List (ℝ × ℝ)))
    (i j : ℕ) : Option Cell :=
  let latStep := (bounds.north - bounds.south) / resolution
  let lngStep := (bounds.east - bounds.west) / resolution
  let lat := bounds.south + i * latStep
  let lng := bounds.west + j * lngStep
  if insideRings lat lng boundaryCoords then
    some ⟨lat, lng, latStep, lngStep, idwInterpolate lat lng points 2⟩
  else none

/-- The worker's full `cells` array: the doubly nested loop over
`0 ≤ i, j ≤ resolution` in order, keeping the cells whose sample point lies
inside some ring (progress `postMessage` calls are I/O and carry no data). -/
noncomputable def workerCells (bounds : WBounds) (resolution : ℕ)
    (points : List IPoint) (boundaryCoords : List (List (ℝ × ℝ))) : List Cell :=
  ((List.range (resolution + 1)).map
    (fun i =>
      (List.range (resolution + 1)).filterMap
        (fun j => workerCellValue bounds resolution points boundaryCoords i j))).flatten

/-- The grid extent in projected meters (the source reuses the names
`minLat`/`maxLat`/`minLng`/`maxLng` for the meter-space y/x bounds). -/
structure Extent where
  minLat : ℝ
  maxLat : ℝ
  minLng : ℝ
  maxLng : ℝ

/-- The `pointsInMeters` projection of a weighted point. -/
noncomputable def project (p : WPoint) : MPoint :=
  ⟨(latLngToMeters p.lat p.lng).1, (latLngToMeters p.lat p.lng).2, p.weight⟩

/-- The `validPoints` filter of `calculateWeightedKDE`: keep points with
defined fields and `weight >= 0` (in this embedding every field is present,
so only the weight test remains). -/
noncomputable def validPoints (points : List WPoint) : List WPoint :=
  points.filter (fun p => decide (0 ≤ p.weight))

/-- The points-extent loop of `calculateWeightedKDE`: min/max of the
projected coordinates.  The source seeds with `±Infinity` and folds over all
points; for the nonempty lists the engine guards for, this equals seeding
with the first point (the `[]` case is unreachable behind the
`validPoints.length === 0` guard). -/
noncomputable def pointsExtent : List MPoint → Extent
  | [] => ⟨0, 0, 0, 0⟩
  | m :: rest =>
    rest.foldl
      (fun e p =>
        ⟨if p.y < e.minLat then p.y else e.minLat,
         if p.y > e.maxLat then p.y else e.maxLat,
         if p.x < e.minLng then p.x else e.minLng,
         if p.x > e.maxLng then p.x else e.maxLng⟩)
      ⟨m.y, m.y, m.x, m.x⟩

/-- Grid extent selection plus padding (§ lines 200–235 of `kde.js`): the
boundary bbox projected to meters with zero padding, or the projected points
extent padded by `bandwidth * 2` on every side. -/
noncomputable def kdeExtent (pb : Option ParsedBoundary) (pm : List MPoint)
    (bandwidth : ℝ) : Extent :=
  match pb with
  | some b =>
    let sw := latLngToMeters b.bbox.minLat b.bbox.minLng
    let ne := latLngToMeters b.bbox.maxLat b.bbox.maxLng
    ⟨sw.2, ne.2, sw.1, ne.1⟩
  | none =>
    let e := pointsExtent pm
    ⟨e.minLat - bandwidth * 2, e.maxLat + bandwidth * 2,
     e.minLng - bandwidth * 2, e.maxLng + bandwidth * 2⟩

/-- Cell-center meter coordinates:
`(minLng + col*cellSize + cellSize/2, minLat + row*cellSize + cellSize/2)`. -/
noncomputable def kdeCellCenter (minLng minLat cellSize : ℝ) (row col : ℕ) : ℝ × ℝ :=
  (minLng + col * cellSize + cellSize / 2, minLat + row * cellSize + cellSize / 2)

/-- The per-cell body of the engine's double loop: convert the cell center
back to geographic coordinates, mask it if a parsed boundary is present and
the center fails `isPointInPolygon`, otherwise accumulate
`Σ weight * gaussianKernel(distance, bandwidth)` over the projected points and
divide by `bandwidth²`. -/
noncomputable def kdeCellValue (pm : List MPoint) (bandwidth cellSize : ℝ)
    (pb : Option ParsedBoundary) (e : Extent) (row col : ℕ) : Option ℝ :=
  let c := kdeCellCenter e.minLng e.minLat cellSize row col
  let g := metersToLatLng c.1 c.2
  let density :=
    (pm.foldl
      (fun acc p =>
        acc + p.weight *
          gaussianKernel (Real.sqrt ((c.1 - p.x) ^ 2 + (c.2 - p.y) ^ 2)) bandwidth)
      0) / (bandwidth * bandwidth)
  match pb with
  | some b => if isPointInPolygon g.1 g.2 b then some density else none
  | none => some density

/-- The engine's grid: a row-major array of `gridHeight * gridWidth` cells,
entry `row * gridWidth + col` holding the value for `(row, col)` (`null` for
masked cells). -/
noncomputable def kdeGridData (pm : List MPoint) (bandwidth cellSize : ℝ)
    (pb : Option ParsedBoundary) (e : Extent) (gridWidth gridHeight : ℕ) :
    List (Option ℝ) :=
  (List.range (gridHeight * gridWidth)).map
    (fun i => kdeCellValue pm bandwidth cellSize pb e (i / gridWidth) (i % gridWidth))

/-- Running minimum over the unmasked values (the source seeds with
`Infinity`; used only when at least one cell is unmasked, where folding from
the first value is the same). -/
noncomputable def foldMin : List ℝ → ℝ
  | [] => 0
  | v :: vs => vs.foldl min v

/-- Running maximum over the unmasked values (source seeds with `-Infinity`;
see `foldMin`). -/
noncomputable def foldMax : List ℝ → ℝ
  | [] => 0
  | v :: vs => vs.foldl max v

/-- The geographic `bounds` record of a result
(`{south, west, north, east}`). -/
structure GeoBounds where
  south : ℝ
  west : ℝ
  north : ℝ
  east : ℝ

/-- A single vote at the projection's reference point (weight 5); used to
exercise the grid-coarsening path, where the padded extent is exactly
`4 × bandwidth` wide in each direction. -/
noncomputable def centerPoint : WPoint := ⟨35.6892, 51.3890, 5⟩

/-- The ring of the spec's §8 unit-square example, in `[lng, lat]` order. -/
noncomputable def unitSquareRing : List (ℝ × ℝ) := [(0, 0), (0, 1), (1, 1), (1, 0), (0, 0)]

/-- A second square ring, far from the first (`[lng, lat]` order). -/
noncomputable def farSquareRing : List (ℝ × ℝ) :=
  [(10, 10), (10, 11), (11, 11), (11, 10), (10, 10)]

/-- A `MultiPolygon` boundary made of the two squares, each a one-ring
polygon. -/
noncomputable def twoSquares : GeoJSON :=
  .geometry (.multiPolygon [[unitSquareRing], [farSquareRing]])

/-- The parsed form `parseBoundary` produces for `twoSquares`: only
`coordinates[0][0]`, the unit square's ring. -/
noncomputable def twoSquaresParsed : ParsedBoundary :=
  ⟨unitSquareRing, ⟨0, 1, 0, 1⟩, true⟩

/-- The parsed form `parseBoundary` produces for the unit-square `Polygon`
(whose `coordinates` are the flat ring, as in the spec's §8 example). -/
noncomputable def unitSquareParsed : ParsedBoundary :=
  ⟨unitSquareRing, ⟨0, 1, 0, 1⟩, false⟩

/-- The record `calculateWeightedKDE` returns.  The empty-grid returns carry
no `cellSize` key, hence `cellSize : Option ℝ`. -/
structure KDEResult where
  gridData : List (Option ℝ)
  min : ℝ
  max : ℝ
  width : ℕ
  height : ℕ
  bounds : Option GeoBounds
  cellSize : Option ℝ

/-- The explicit empty result
`{gridData: [], min: 0, max: 0, width: 0, height: 0, bounds: null}`. -/
noncomputable def emptyKDE : KDEResult := ⟨[], 0, 0, 0, 0, none, none⟩

/-- `MAX_CELLS` from `kde.js`. -/
def MAX_CELLS : ℤ := 500000

/-- The post-guard tail of `calculateWeightedKDE`: build the grid; if zero
cells are unmasked return the empty result, else return the grid with its
running min/max, dimensions, reprojected bounds, and the cell size used. -/
noncomputable def kdeMain (pm : List MPoint) (bandwidth cellSize : ℝ)
    (pb : Option ParsedBoundary) (e : Extent) (gridWidth gridHeight : ℕ) :
    KDEResult :=
  let gd := kdeGridData pm bandwidth cellSize pb e gridWidth gridHeight
  let vals := gd.filterMap id
  if vals.length = 0 then emptyKDE
  else
    let sw := metersToLatLng e.minLng e.minLat
    let ne := metersToLatLng e.maxLng e.maxLat
    ⟨gd, foldMin vals, foldMax vals, gridWidth, gridHeight,
      some ⟨sw.1, sw.2, ne.1, ne.2⟩, some cellSize⟩

/-- `calculateWeightedKDE(points, bandwidth, cellSize, boundary)` from
`kde.js`, with an explicit fuel bounding the number of (recursive) calls;
`none` means the computation did not finish within `fuel` calls.  An
unparseable boundary degrades to "no boundary" (`Option.bind`).  When
`gridWidth * gridHeight` exceeds `MAX_CELLS` the engine rescales `cellSize`
by `sqrt((gridWidth * gridHeight) / MAX_CELLS)` and calls itself.  (The
source computes `pointsInMeters` after the guard; it is a pure value, so
computing it before, as `pm` here, is observationally identical.) -/
noncomputable def calculateWeightedKDE :
    ℕ → List WPoint → ℝ → ℝ → Option GeoJSON → Option KDEResult
  | 0, _, _, _, _ => none
  | fuel + 1, points, bandwidth, cellSize, boundary =>
    if points.isEmpty then some emptyKDE
    else
      let vp := validPoints points
      if vp.isEmpty then some emptyKDE
      else
        let pb := boundary.bind parseBoundary
        let pm := vp.map project
        let e := kdeExtent pb pm bandwidth
        let gridWidth : ℤ := ⌈(e.maxLng - e.minLng) / cellSize⌉
        let gridHeight : ℤ := ⌈(e.maxLat - e.minLat) / cellSize⌉
        if MAX_CELLS < gridWidth * gridHeight then
          calculateWeightedKDE fuel points bandwidth
            (cellSize * Real.sqrt (((gridWidth * gridHeight : ℤ) : ℝ) / 500000))
            boundary
        else
          some (kdeMain pm bandwidth cellSize pb e gridWidth.toNat gridHeight.toNat)

end PGIS

namespace PGIS

/-- C2 counterexample: on the degenerate range `min = max = 5`, the source's
`gridData.map(() => newMin)` branch overwrites a masked (`null`) cell with
`newMin = 0`, so the masked cell does *not* stay masked. -/
theorem normalizeGrid_masked_overwritten_on_constant_field :
    normalizeGrid [none] 5 5 0 1 = [some 0] ∧ normalizeGrid [none] 5 5 0 1 ≠ [none] := by
  constructor
  · simp [normalizeGrid]
  · simp [normalizeGrid]

/-- C2 (amended): with the default target range `[0, 1]`:
if `max ≠ min`, `normalizeGrid` rescales every unmasked value by
`v ↦ (v − min)/(max − min)` and leaves every masked cell masked; a value
between `min` and `max` lands in `[0, 1]`.  If `max = min`, *every* cell —
masked cells included — is mapped to `newMin = 0`. -/
theorem normalizeGrid_spec (g : List (Option ℝ)) (min max : ℝ) :
    (max = min → normalizeGrid g min max 0 1 = g.map (fun _ => some 0)) ∧
    (max ≠ min →
      normalizeGrid g min max 0 1 =
        g.map (Option.map (fun v => (v - min) / (max - min)))) ∧
    (∀ v : ℝ, min ≤ v → v ≤ max → min < max →
      (v - min) / (max - min) ∈ Set.Icc (0 : ℝ) 1) := by
  refine ⟨fun h => ?_, fun h => ?_, fun v h1 h2 h3 => ?_⟩
  · simp [normalizeGrid, h]
  · simp only [normalizeGrid, if_neg h]
    congr 1
    funext x
    cases x with
    | none => rfl
    | some value =>
        simp only [Option.map]
        congr 1
        ring
  · have hpos : (0 : ℝ) < max - min := by linarith
    constructor
    · apply div_nonneg <;> linarith
    · rw [div_le_one hpos]; linarith

/-- Witness for `normalizeGrid_spec`: a two-cell grid with one unmasked value
`2` and one masked cell, range `[1, 3]`. -/
theorem normalizeGrid_spec_witness :
    normalizeGrid [some 2, none] 1 3 0 1 =
      List.map (Option.map (fun v => (v - 1) / (3 - 1))) [some 2, none] ∧
    ((2:ℝ) - 1) / (3 - 1) ∈ Set.Icc (0 : ℝ) 1 :=
  ⟨(normalizeGrid_spec [some 2, none] 1 3).2.1 (by norm_num),
   (normalizeGrid_spec [some 2, none] 1 3).2.2 2 (by norm_num) (by norm_num) (by norm_num)⟩

/-- C7: composing the projection with its inverse is the identity in real
arithmetic: `metersToLatLng (latLngToMeters lat lng) = (lat, lng)`. -/
theorem latLngToMeters_roundTrip (lat lng : ℝ) :
    metersToLatLng (latLngToMeters lat lng).1 (latLngToMeters lat lng).2 = (lat, lng) := by
  have hcos : Real.cos (TEHRAN_CENTER_LAT * Real.pi / 180) ≠ 0 := by
    have hpi := Real.pi_pos
    apply ne_of_gt
    apply Real.cos_pos_of_mem_Ioo
    unfold TEHRAN_CENTER_LAT
    constructor
    · nlinarith
    · nlinarith
  unfold metersToLatLng latLngToMeters
  have h111320 : (111320 : ℝ) ≠ 0 := by norm_num
  ext
  · field_simp
  · field_simp
    ring

/-- When no point of the list is within epsilon of the query, the IDW loop
reduces to the closed-form sums followed by the guarded final division. -/
theorem idwLoop_no_eps (lat lng power : ℝ) (points : List IPoint)
    (h : ∀ p ∈ points,
      ¬ (Real.sqrt ((lat - p.lat) ^ 2 + (lng - p.lng) ^ 2) < 0.0001)) :
    ∀ numerator denominator : ℝ,
      idwLoop lat lng power points numerator denominator =
        if denominator + idwDenom lat lng power points > 0 then
          (numerator + idwNumer lat lng power points) /
            (denominator + idwDenom lat lng power points)
        else 0 := by
  induction points with
  | nil => intro numerator denominator; simp [idwLoop, idwDenom, idwNumer]
  | cons p rest ih =>
    intro numerator denominator
    rw [idwLoop, if_neg (h p (by simp))]
    rw [ih (fun q hq => h q (by simp [hq]))]
    have hd : denominator + 1 / Real.sqrt ((lat - p.lat) ^ 2 + (lng - p.lng) ^ 2) ^ power +
        idwDenom lat lng power rest = denominator + idwDenom lat lng power (p :: rest) := by
      simp [idwDenom]; ring
    have hn : numerator + 1 / Real.sqrt ((lat - p.lat) ^ 2 + (lng - p.lng) ^ 2) ^ power * p.score +
        idwNumer lat lng power rest = numerator + idwNumer lat lng power (p :: rest) := by
      simp [idwNumer]; ring
    rw [hd, hn]

/-- C10: the IDW estimator returns `0` on a missing/empty point list, and
whenever no point triggers the epsilon early-return and the accumulated
denominator is not strictly positive, the final
`denominator > 0 ? numerator / denominator : 0` guard also returns `0`; in
this real-arithmetic model it is a total function (never throws or divides by
zero). -/
theorem idwInterpolate_zero_guards :
    (∀ lat lng power : ℝ, idwInterpolate lat lng [] power = 0) ∧
    (∀ (lat lng power : ℝ) (points : List IPoint),
      (∀ p ∈ points,
        ¬ (Real.sqrt ((lat - p.lat) ^ 2 + (lng - p.lng) ^ 2) < 0.0001)) →
      idwDenom lat lng power points ≤ 0 →
      idwInterpolate lat lng points power = 0) := by
  constructor
  · intro lat lng power; simp [idwInterpolate]
  · intro lat lng power points hfar hden
    unfold idwInterpolate
    by_cases hemp : points.isEmpty
    · simp [hemp]
    · rw [if_neg hemp, idwLoop_no_eps lat lng power points hfar]
      rw [if_neg (by push_neg; linarith)]

/-- Witness for `idwInterpolate_zero_guards`: the empty point list at a
concrete query point. -/
theorem idwInterpolate_zero_guards_witness :
    idwInterpolate 1 2 [] 2 = 0 :=
  idwInterpolate_zero_guards.2 1 2 2 [] (by simp) (by simp [idwDenom])

/-- The IDW loop returns the score of position `k` when point `k` is within
epsilon and every earlier-or-later point is not, whatever was accumulated
so far. -/
theorem idwLoop_eps_hit (lat lng power : ℝ) (points : List IPoint) (k : ℕ)
    (hk : k < points.length)
    (hnear :
      Real.sqrt ((lat - (points.get ⟨k, hk⟩).lat) ^ 2 +
        (lng - (points.get ⟨k, hk⟩).lng) ^ 2) < 0.0001)
    (hfar : ∀ (i : ℕ) (hi : i < points.length), i ≠ k →
      ¬ (Real.sqrt ((lat - (points.get ⟨i, hi⟩).lat) ^ 2 +
          (lng - (points.get ⟨i, hi⟩).lng) ^ 2) < 0.0001)) :
    ∀ numerator denominator : ℝ,
      idwLoop lat lng power points numerator denominator =
        (points.get ⟨k, hk⟩).score := by
  induction points generalizing k with
  | nil => exact absurd hk (by simp)
  | cons p rest ih =>
    intro numerator denominator
    cases k with
    | zero =>
      simp only [List.get] at hnear ⊢
      rw [idwLoop, if_pos hnear]
    | succ k =>
      have hp : ¬ (Real.sqrt ((lat - p.lat) ^ 2 + (lng - p.lng) ^ 2) < 0.0001) := by
        have := hfar 0 (by simp) (by simp)
        simpa [List.get] using this
      rw [idwLoop, if_neg hp]
      have hk' : k < rest.length := by simpa using hk
      exact ih k hk' (by simpa [List.get] using hnear)
        (fun i hi hne => by
          have := hfar (i + 1) (by simpa using Nat.succ_lt_succ hi) (by omega)
          simpa [List.get] using this) _ _

/-- C9: when the query point's degree-space distance to exactly one input
point is below the fixed epsilon `0.0001`, the IDW estimator returns exactly
that point's score, independent of the other points present. -/
theorem idwInterpolate_eps_match (lat lng power : ℝ) (points : List IPoint)
    (k : ℕ) (hk : k < points.length)
    (hnear :
      Real.sqrt ((lat - (points.get ⟨k, hk⟩).lat) ^ 2 +
        (lng - (points.get ⟨k, hk⟩).lng) ^ 2) < 0.0001)
    (hfar : ∀ (i : ℕ) (hi : i < points.length), i ≠ k →
      ¬ (Real.sqrt ((lat - (points.get ⟨i, hi⟩).lat) ^ 2 +
          (lng - (points.get ⟨i, hi⟩).lng) ^ 2) < 0.0001)) :
    idwInterpolate lat lng points power = (points.get ⟨k, hk⟩).score := by
  unfold idwInterpolate
  have hne : ¬ points.isEmpty := by
    cases points with
    | nil => exact absurd hk (by simp)
    | cons p rest => simp
  rw [if_neg hne]
  exact idwLoop_eps_hit lat lng power points k hk hnear hfar 0 0

/-- Witness for `idwInterpolate_eps_match`: query `(0, 0)` coincides with the
first of two points (score `3`); the other point is `√2` degrees away. -/
theorem idwInterpolate_eps_match_witness :
    idwInterpolate 0 0 [⟨0, 0, 3⟩, ⟨1, 1, 7⟩] 2 = 3 := by
  have h2 : ¬ (Real.sqrt ((0 - (1:ℝ)) ^ 2 + (0 - (1:ℝ)) ^ 2) < 0.0001) := by
    push_neg
    have hs : Real.sqrt ((0 - (1:ℝ)) ^ 2 + (0 - (1:ℝ)) ^ 2) = Real.sqrt 2 := by norm_num
    rw [hs]
    nlinarith [Real.sq_sqrt (show (0:ℝ) ≤ 2 by norm_num), Real.sqrt_nonneg 2]
  have := idwInterpolate_eps_match 0 0 2 [⟨0, 0, 3⟩, ⟨1, 1, 7⟩] 0 (by norm_num)
    (by norm_num [List.get])
    (fun i hi hne => by
      have hi2 : i < 2 := by simpa using hi
      have h1 : i = 1 := by omega
      subst h1
      simpa [List.get] using h2)
  simpa [List.get] using this

/-- C3 (amended, the part that holds): the IDW worker's (and
`FavoribilityLayer`'s) inclusion scan reports a point inside iff the
ray-casting flag is true for at least one of the boundary's rings (logical OR
across all rings), and the worker emits the cell for indices `(i, j)` iff
that OR-test succeeds at the cell's sample point. -/
theorem insideRings_or_spec (lat lng : ℝ) (boundaryCoords : List (List (ℝ × ℝ))) :
    (insideRings lat lng boundaryCoords = true ↔
      ∃ ring ∈ boundaryCoords, isPointInBoundary lat lng ring = true) ∧
    (∀ (bounds : WBounds) (resolution : ℕ) (points : List IPoint) (i j : ℕ),
      lat = bounds.south + i * ((bounds.north - bounds.south) / resolution) →
      lng = bounds.west + j * ((bounds.east - bounds.west) / resolution) →
      ((workerCellValue bounds resolution points boundaryCoords i j).isSome = true ↔
        ∃ ring ∈ boundaryCoords, isPointInBoundary lat lng ring = true)) := by
  have hor : insideRings lat lng boundaryCoords = true ↔
      ∃ ring ∈ boundaryCoords, isPointInBoundary lat lng ring = true := by
    induction boundaryCoords with
    | nil => simp [insideRings]
    | cons ring rest ih =>
      rw [insideRings]
      by_cases h : isPointInBoundary lat lng ring = true
      · simp [h]
      · simp only [h, if_neg, Bool.false_eq_true, if_false]
        rw [ih]
        simp [h]
  refine ⟨hor, fun bounds resolution points i j hlat hlng => ?_⟩
  rw [workerCellValue]
  subst hlat hlng
  by_cases h : insideRings (bounds.south + i * ((bounds.north - bounds.south) / resolution))
      (bounds.west + j * ((bounds.east - bounds.west) / resolution)) boundaryCoords
  · simp only [h, if_pos, Option.isSome_some]
    rw [← hor]
    simp [h]
  · simp only [h, Bool.false_eq_true, if_false, Option.isSome_none]
    rw [← hor]
    simp [h]

/-- Witness for `insideRings_or_spec`: the worker's sample point for
`i = j = 0` is the south-west corner. -/
theorem insideRings_or_spec_witness :
    (workerCellValue ⟨1, 0, 1, 0⟩ 1 [] [unitSquareRing] 0 0).isSome = true ↔
      ∃ ring ∈ [unitSquareRing],
        isPointInBoundary (0 + (0:ℕ) * ((1 - 0) / ((1:ℕ):ℝ)))
          (0 + (0:ℕ) * ((1 - 0) / ((1:ℕ):ℝ))) ring = true :=
  (insideRings_or_spec (0 + (0:ℕ) * ((1 - 0) / ((1:ℕ):ℝ)))
      (0 + (0:ℕ) * ((1 - 0) / ((1:ℕ):ℝ))) [unitSquareRing]).2
    ⟨1, 0, 1, 0⟩ 1 [] 0 0 rfl rfl

/-- C3 counterexample: for the `MultiPolygon` of two squares, `parseBoundary`
in `kde.js` keeps only `coordinates[0][0]` (the first ring of the first
polygon), so the density engine's inclusion test rejects the point
`(lat, lng) = (10.5, 10.5)` even though the ray-casting flag is true for the
second polygon's ring: the OR-across-rings description fails for the WKDE
engine. -/
theorem parseBoundary_multiPolygon_first_ring_only :
    parseBoundary twoSquares = some twoSquaresParsed ∧
    isPointInBoundary 10.5 10.5 farSquareRing = true ∧
    isPointInPolygon 10.5 10.5 twoSquaresParsed = false := by
  refine ⟨?_, ?_, ?_⟩
  · simp only [twoSquares, parseBoundary, parseGeometry]
    norm_num [unitSquareRing, computeBBox, twoSquaresParsed]
  · rw [isPointInBoundary, farSquareRing, ringEdges]
    norm_num [List.zip, List.zipWith, eq_iff_iff]
  · rw [isPointInPolygon, twoSquaresParsed]
    norm_num

/-- C4: for the unit-square boundary (`[[0,0],[0,1],[1,1],[1,0],[0,0]]` in
`(lng, lat)` order): `parseBoundary` yields the square's ring with bbox
`[0,1]×[0,1]`; the inclusion test accepts every point strictly inside and
rejects every point strictly outside; and in the density engine a cell is
masked exactly when its computed center fails the inclusion test. -/
theorem unitSquare_masking_spec :
    parseBoundary (.geometry (.polygon unitSquareRing)) = some unitSquareParsed ∧
    (∀ lat lng : ℝ, 0 < lat → lat < 1 → 0 < lng → lng < 1 →
      isPointInPolygon lat lng unitSquareParsed = true) ∧
    (∀ lat lng : ℝ, lat < 0 ∨ 1 < lat ∨ lng < 0 ∨ 1 < lng →
      isPointInPolygon lat lng unitSquareParsed = false) ∧
    (∀ (pm : List MPoint) (bandwidth cellSize : ℝ) (b : ParsedBoundary)
        (e : Extent) (row col : ℕ),
      (kdeCellValue pm bandwidth cellSize (some b) e row col = none ↔
        isPointInPolygon
          (metersToLatLng (kdeCellCenter e.minLng e.minLat cellSize row col).1
            (kdeCellCenter e.minLng e.minLat cellSize row col).2).1
          (metersToLatLng (kdeCellCenter e.minLng e.minLat cellSize row col).1
            (kdeCellCenter e.minLng e.minLat cellSize row col).2).2 b = false)) := by
  refine ⟨?_, ?_, ?_, ?_⟩
  · simp only [parseBoundary, parseGeometry]
    norm_num [unitSquareRing, computeBBox, unitSquareParsed]
  · intro lat lng h1 h2 h3 h4
    rw [isPointInPolygon]
    rw [if_neg (by
      push_neg
      norm_num [unitSquareParsed]
      exact ⟨le_of_lt h3, le_of_lt h4, le_of_lt h1, le_of_lt h2⟩)]
    simp only [unitSquareParsed, ringEdges, unitSquareRing, List.getLastD,
      List.zip, List.zipWith, List.foldl]
    norm_num
    have hc : ¬(lat < 0 ↔ lat < 1) ∧ lng < 1 :=
      ⟨fun hiff => absurd (hiff.mpr h2) (by linarith), h4⟩
    rw [if_pos hc]
    exact Or.inr (le_of_lt h3)
  · intro lat lng h
    rw [isPointInPolygon]
    rw [if_pos]
    simp only [unitSquareParsed]
    rcases h with h | h | h | h
    · exact Or.inr (Or.inr (Or.inl h))
    · exact Or.inr (Or.inr (Or.inr h))
    · exact Or.inl h
    · exact Or.inr (Or.inl h)
  · intro pm bandwidth cellSize b e row col
    rw [kdeCellValue]
    by_cases hin :
        isPointInPolygon
          (metersToLatLng (kdeCellCenter e.minLng e.minLat cellSize row col).1
            (kdeCellCenter e.minLng e.minLat cellSize row col).2).1
          (metersToLatLng (kdeCellCenter e.minLng e.minLat cellSize row col).1
            (kdeCellCenter e.minLng e.minLat cellSize row col).2).2 b = true
    · simp [hin]
    · simp only [Bool.not_eq_true] at hin
      simp [hin]

/-- Witness for `unitSquare_masking_spec`: `(lat, lng) = (0.5, 0.5)` is
inside the unit square; `(2, 2)` is outside. -/
theorem unitSquare_masking_spec_witness :
    isPointInPolygon 0.5 0.5 unitSquareParsed = true ∧
    isPointInPolygon 2 2 unitSquareParsed = false :=
  ⟨unitSquare_masking_spec.2.1 0.5 0.5 (by norm_num) (by norm_num) (by norm_num)
      (by norm_num),
   unitSquare_masking_spec.2.2.1 2 2 (Or.inr (Or.inl (by norm_num)))⟩

/-- The engine's additive accumulation loop equals the closed-form sum. -/
theorem foldl_add_map (g : MPoint → ℝ) :
    ∀ (l : List MPoint) (init : ℝ),
      l.foldl (fun acc p => acc + g p) init = init + (l.map g).sum := by
  intro l
  induction l with
  | nil => intro init; simp
  | cons p rest ih =>
    intro init
    rw [List.foldl_cons, ih]
    simp
    ring

/-- The code's `gaussianKernel(d, bandwidth)` is the spec's standard Gaussian
kernel applied to `u = d / bandwidth`. -/
theorem gaussianKernel_eq_spec (d bandwidth : ℝ) :
    gaussianKernel d bandwidth = specGaussian (d / bandwidth) := by
  unfold gaussianKernel specGaussian
  congr 1
  congr 1
  ring

/-- C5: every unmasked value the engine stores at index `idx` of its
row-major grid equals `(Σ_i weight_i · K(d_i / bandwidth)) / bandwidth²`,
where `d_i` is the Euclidean distance in projected meters from the cell
center of `(row, col) = (idx / width, idx % width)` to point `i` and `K` is
the standard Gaussian kernel. -/
theorem kdeMain_cell_formula (pm : List MPoint) (bandwidth cellSize : ℝ)
    (pb : Option ParsedBoundary) (e : Extent) (gridWidth gridHeight : ℕ)
    (idx : ℕ) (v : ℝ)
    (h : (kdeMain pm bandwidth cellSize pb e gridWidth gridHeight).gridData[idx]? =
      some (some v)) :
    v = (pm.map (fun p =>
          p.weight * specGaussian (Real.sqrt
            (((kdeCellCenter e.minLng e.minLat cellSize (idx / gridWidth) (idx % gridWidth)).1 - p.x) ^ 2 +
             ((kdeCellCenter e.minLng e.minLat cellSize (idx / gridWidth) (idx % gridWidth)).2 - p.y) ^ 2) /
            bandwidth))).sum / bandwidth ^ 2 := by
  simp only [kdeMain] at h
  split_ifs at h with hlen
  · simp [emptyKDE] at h
  · simp only [kdeGridData, List.getElem?_map, List.getElem?_range'] at h
    by_cases hidx : idx < gridHeight * gridWidth
    · rw [List.getElem?_range hidx] at h
      simp only [Option.map_some'] at h
      have hcell : kdeCellValue pm bandwidth cellSize pb e (idx / gridWidth) (idx % gridWidth) =
          some v := by
        exact Option.some.inj h
      have hval : ∀ w : ℝ,
          (pm.foldl
            (fun acc p =>
              acc + p.weight *
                gaussianKernel (Real.sqrt
                  (((kdeCellCenter e.minLng e.minLat cellSize (idx / gridWidth) (idx % gridWidth)).1 - p.x) ^ 2 +
                   ((kdeCellCenter e.minLng e.minLat cellSize (idx / gridWidth) (idx % gridWidth)).2 - p.y) ^ 2))
                  bandwidth)
            0) / (bandwidth * bandwidth) = w → v = w → v =
          (pm.map (fun p =>
            p.weight * specGaussian (Real.sqrt
              (((kdeCellCenter e.minLng e.minLat cellSize (idx / gridWidth) (idx % gridWidth)).1 - p.x) ^ 2 +
               ((kdeCellCenter e.minLng e.minLat cellSize (idx / gridWidth) (idx % gridWidth)).2 - p.y) ^ 2) /
              bandwidth))).sum / bandwidth ^ 2 := by
        intro w hw hvw
        subst hvw
        rw [← hw, foldl_add_map, zero_add]
        simp only [gaussianKernel_eq_spec]
        rw [sq]
      cases pb with
      | none =>
        simp only [kdeCellValue] at hcell
        exact hval _ rfl (Option.some.inj hcell).symm
      | some b =>
        simp only [kdeCellValue] at hcell
        split_ifs at hcell
        exact hval _ rfl (Option.some.inj hcell).symm
    · rw [List.getElem?_eq_none (by simpa using hidx)] at h
      simp at h

/-- Witness for `kdeMain_cell_formula`: a one-cell boundary-free grid over
the extent `[0, 4] × [0, 4]` meters with no points; the stored value is `0`
and the empty kernel sum is `0`. -/
theorem kdeMain_cell_formula_witness :
    (kdeMain [] 1 4 none ⟨0, 4, 0, 4⟩ 1 1).gridData[0]? = some (some 0) ∧
    (0 : ℝ) = (([] : List MPoint).map (fun p =>
          p.weight * specGaussian (Real.sqrt
            (((kdeCellCenter 0 0 4 (0 / 1) (0 % 1)).1 - p.x) ^ 2 +
             ((kdeCellCenter 0 0 4 (0 / 1) (0 % 1)).2 - p.y) ^ 2) /
            1))).sum / 1 ^ 2 := by
  have h : (kdeMain [] 1 4 none ⟨0, 4, 0, 4⟩ 1 1).gridData[0]? = some (some 0) := by
    simp [kdeMain, kdeGridData, kdeCellValue, List.filterMap]
  exact ⟨h, kdeMain_cell_formula [] 1 4 none ⟨0, 4, 0, 4⟩ 1 1 0 0 h⟩

/-- C6: whenever `calculateWeightedKDE` finishes, its result is the explicit
empty grid `{gridData: [], min: 0, max: 0, width: 0, height: 0, bounds: null}`
exactly when the input is degenerate: the point list is empty, no point
survives the validity filter, or zero cells of the produced grid are
unmasked. -/
theorem kde_empty_result_iff (fuel : ℕ) (points : List WPoint)
    (bandwidth cellSize : ℝ) (boundary : Option GeoJSON) (r : KDEResult)
    (h : calculateWeightedKDE fuel points bandwidth cellSize boundary = some r) :
    (r = emptyKDE ↔
      (points.isEmpty = true ∨ validPoints points = [] ∨ ∀ x ∈ r.gridData, x = none)) := by
  induction fuel generalizing cellSize with
  | zero => simp [calculateWeightedKDE] at h
  | succ fuel ih =>
    simp only [calculateWeightedKDE] at h
    split_ifs at h with hpe hve hguard
    · cases Option.some.inj h
      simp [hpe]
    · cases Option.some.inj h
      have : validPoints points = [] := List.isEmpty_iff.mp hve
      simp [this]
    · exact ih _ h
    · cases Option.some.inj h
      simp only [kdeMain]
      split_ifs with hlen
      · simp [emptyKDE]
      · constructor
        · intro hcontra
          exact absurd (congrArg KDEResult.bounds hcontra) (by simp [emptyKDE])
        · intro hrhs
          rcases hrhs with h1 | h2 | h3
          · exact absurd h1 (by simp [hpe])
          · exact absurd h2 (by
              intro hh
              exact hve (by simp [hh]))
          · exfalso
            apply hlen
            have : (kdeGridData (List.map project (validPoints points)) bandwidth cellSize
                (boundary.bind parseBoundary)
                (kdeExtent (boundary.bind parseBoundary) (List.map project (validPoints points)) bandwidth)
                (⌈((kdeExtent (boundary.bind parseBoundary) (List.map project (validPoints points)) bandwidth).maxLng -
                    (kdeExtent (boundary.bind parseBoundary) (List.map project (validPoints points)) bandwidth).minLng) /
                    cellSize⌉).toNat
                (⌈((kdeExtent (boundary.bind parseBoundary) (List.map project (validPoints points)) bandwidth).maxLat -
                    (kdeExtent (boundary.bind parseBoundary) (List.map project (validPoints points)) bandwidth).minLat) /
                    cellSize⌉).toNat).filterMap id = [] := by
              rw [List.filterMap_eq_nil_iff]
              intro a ha
              exact h3 a ha
            rw [this]
            rfl

/-- Witness for `kde_empty_result_iff`: the empty input
`density([], 1000, 100, null)` finishes in one call with the explicit empty
grid. -/
theorem kde_empty_result_iff_witness :
    emptyKDE = emptyKDE ↔
      ((([] : List WPoint).isEmpty = true) ∨ validPoints [] = [] ∨
        ∀ x ∈ emptyKDE.gridData, x = none) :=
  kde_empty_result_iff 1 [] 1000 100 none emptyKDE (by simp [calculateWeightedKDE])

/-- C8 (amended): the engine's grid is row-major with the *first* row the
*southernmost*: cell-center latitude strictly increases with the row index
(for positive cell size), so row `0` lies south of row `height - 1`; the
consumer (`HotspotLayer`) flips rows with `(height - 1 - row)` when drawing. -/
theorem kde_rows_south_to_north (minLng minLat cellSize : ℝ) (hc : 0 < cellSize)
    (row1 row2 col : ℕ) (h : row1 < row2) :
    (metersToLatLng (kdeCellCenter minLng minLat cellSize row1 col).1
       (kdeCellCenter minLng minLat cellSize row1 col).2).1 <
    (metersToLatLng (kdeCellCenter minLng minLat cellSize row2 col).1
       (kdeCellCenter minLng minLat cellSize row2 col).2).1 := by
  have hr : (row1 : ℝ) < row2 := by exact_mod_cast h
  simp only [metersToLatLng, kdeCellCenter]
  apply add_lt_add_right
  apply (div_lt_div_iff_of_pos_right (by norm_num : (0:ℝ) < 111320)).mpr
  nlinarith [mul_lt_mul_of_pos_right hr hc]

/-- Witness for `kde_rows_south_to_north`: rows `0 < 1` of a unit-cell grid
anchored at the projection origin. -/
theorem kde_rows_south_to_north_witness :
    (metersToLatLng (kdeCellCenter 0 0 1 0 0).1 (kdeCellCenter 0 0 1 0 0).2).1 <
    (metersToLatLng (kdeCellCenter 0 0 1 1 0).1 (kdeCellCenter 0 0 1 1 0).2).1 :=
  kde_rows_south_to_north 0 0 1 (by norm_num) 0 1 0 (by norm_num)

/-- C8 counterexample: an engine-built grid of height `4` (extent
`[0,4] × [0,4]` meters, unit cells, no boundary) whose row-`0` cell center
does *not* have strictly greater latitude than the row-`height-1` cell
center — row `0` is the southernmost row, not the northernmost. -/
theorem kde_row0_not_northernmost :
    (kdeMain [] 1 1 none ⟨0, 4, 0, 4⟩ 4 4).height = 4 ∧
    ¬ ((metersToLatLng (kdeCellCenter 0 0 1 0 0).1 (kdeCellCenter 0 0 1 0 0).2).1 >
       (metersToLatLng (kdeCellCenter 0 0 1 3 0).1 (kdeCellCenter 0 0 1 3 0).2).1) := by
  constructor
  · have hlen : ((kdeGridData [] 1 1 none ⟨0, 4, 0, 4⟩ 4 4).filterMap id).length = 16 := by
      rfl
    simp only [kdeMain]
    rw [if_neg (by rw [hlen]; norm_num)]
  · push_neg
    simp only [metersToLatLng, kdeCellCenter]
    apply add_le_add_right
    apply (div_le_div_iff_of_pos_right (by norm_num : (0:ℝ) < 111320)).mpr
    norm_num

/-- The validity filter keeps the center point (weight `5 ≥ 0`). -/
theorem validPoints_centerPoint : validPoints [centerPoint] = [centerPoint] := by
  norm_num [validPoints, centerPoint, List.filter]

/-- The center point projects to the meter-space origin. -/
theorem project_centerPoint : project centerPoint = ⟨0, 0, 5⟩ := by
  norm_num [project, centerPoint, latLngToMeters, TEHRAN_CENTER_LAT, TEHRAN_CENTER_LNG]

/-- With no boundary and bandwidth `177`, the single origin point yields the
padded extent `[-354, 354]` on both meter axes. -/
theorem kdeExtent_single : kdeExtent none [(⟨0, 0, 5⟩ : MPoint)] 177 =
    ⟨-354, 354, -354, 354⟩ := by
  norm_num [kdeExtent, pointsExtent]

/-- One unfolding of `calculateWeightedKDE` on the single center point with
bandwidth `177` and no boundary: both grid dimensions are `⌈708 / c⌉`, and
the engine either recurses with the rescaled cell size or finishes. -/
theorem kde_step_center (fuel : ℕ) (c : ℝ) :
    calculateWeightedKDE (fuel + 1) [centerPoint] 177 c none =
      if MAX_CELLS < ⌈(708:ℝ) / c⌉ * ⌈(708:ℝ) / c⌉ then
        calculateWeightedKDE fuel [centerPoint] 177
          (c * Real.sqrt (((⌈(708:ℝ) / c⌉ * ⌈(708:ℝ) / c⌉ : ℤ) : ℝ) / 500000)) none
      else
        some (kdeMain [⟨0, 0, 5⟩] 177 c none ⟨-354, 354, -354, 354⟩
          (⌈(708:ℝ) / c⌉).toNat (⌈(708:ℝ) / c⌉).toNat) := by
  simp only [calculateWeightedKDE, validPoints_centerPoint, List.map_cons, List.map_nil,
    project_centerPoint, Option.bind, kdeExtent_single]
  norm_num

/-- `⌈708 / √(501264/500000)⌉ = 708`: the rescaled grid dimension after the
first coarsening pass is again `708`. -/
theorem ceil_708_div_sqrt : ⌈(708:ℝ) / Real.sqrt (501264 / 500000)⌉ = 708 := by
  have hs1 : (1:ℝ) ≤ Real.sqrt (501264 / 500000) := by
    rw [show (1:ℝ) = Real.sqrt 1 by rw [Real.sqrt_one]]
    exact Real.sqrt_le_sqrt (by norm_num)
  have hs2 : Real.sqrt (501264 / 500000) < 708 / 707 := by
    rw [show (708 / 707 : ℝ) = Real.sqrt ((708 / 707) ^ 2) from
      (Real.sqrt_sq (by norm_num)).symm]
    exact Real.sqrt_lt_sqrt (by norm_num) (by norm_num)
  have hpos : (0:ℝ) < Real.sqrt (501264 / 500000) := Real.sqrt_pos.mpr (by norm_num)
  rw [Int.ceil_eq_iff]
  constructor
  · push_cast
    rw [lt_div_iff₀ hpos]
    nlinarith
  · push_cast
    calc (708:ℝ) / Real.sqrt (501264 / 500000) ≤ 708 / 1 := by
          apply div_le_div_of_nonneg_left (by norm_num) (by norm_num) hs1
      _ = 708 := by norm_num

/-- `⌈708 / (501264/500000)⌉ = 707`: the grid dimension after two coarsening
passes, which finally fits the cap. -/
theorem ceil_708_div_ratio : ⌈(708:ℝ) / (501264 / 500000)⌉ = 707 := by
  rw [show (708:ℝ) / (501264 / 500000) = 354000000 / 501264 by norm_num]
  rw [Int.ceil_eq_iff]
  norm_num

/-- C1 counterexample: for one point at the projection center with
`bandwidth = 177 > 0` and `cellSize = 1 > 0` (naive grid `708 × 708 =
501264 > 500000` cells), the engine restarts *twice*, not exactly once: the
restarted grid is again `708 × 708`, exceeding the 500,000-cell ceiling, so
two calls of fuel do not finish while three do. -/
theorem kde_coarsening_restarts_twice :
    calculateWeightedKDE 2 [centerPoint] 177 1 none = none ∧
    calculateWeightedKDE 3 [centerPoint] 177 1 none ≠ none := by
  have hstep1 : ∀ fuel : ℕ, calculateWeightedKDE (fuel + 1) [centerPoint] 177 1 none =
      calculateWeightedKDE fuel [centerPoint] 177 (Real.sqrt (501264 / 500000)) none := by
    intro fuel
    rw [kde_step_center]
    rw [show ⌈(708:ℝ) / 1⌉ = 708 by norm_num]
    rw [if_pos (by norm_num [MAX_CELLS])]
    congr 1
    rw [one_mul]
    norm_num
  have hstep2 : ∀ fuel : ℕ,
      calculateWeightedKDE (fuel + 1) [centerPoint] 177 (Real.sqrt (501264 / 500000)) none =
      calculateWeightedKDE fuel [centerPoint] 177 (501264 / 500000) none := by
    intro fuel
    rw [kde_step_center, ceil_708_div_sqrt]
    rw [if_pos (by norm_num [MAX_CELLS])]
    congr 1
    rw [show (((708 * 708 : ℤ) : ℝ)) / 500000 = 501264 / 500000 by norm_num]
    exact Real.mul_self_sqrt (by norm_num)
  constructor
  · rw [show (2:ℕ) = 1 + 1 by norm_num, hstep1 1,
      show (1:ℕ) = 0 + 1 by norm_num, hstep2 0]
    rfl
  · rw [show (3:ℕ) = 2 + 1 by norm_num, hstep1 2,
      show (2:ℕ) = 1 + 1 by norm_num, hstep2 1,
      show (1:ℕ) = 0 + 1 by norm_num, kde_step_center 0 (501264 / 500000),
      ceil_708_div_ratio, if_neg (by norm_num [MAX_CELLS])]
    simp

/-- From `a * b ≤ 500000` over `ℤ`, the truncated product also fits. -/
theorem toNat_mul_le_of_mul_le {a b : ℤ} (h : a * b ≤ 500000) :
    a.toNat * b.toNat ≤ 500000 := by
  by_cases ha : 0 < a
  · by_cases hb : 0 < b
    · have hcast : ((a.toNat * b.toNat : ℕ) : ℤ) = a * b := by
        push_cast
        rw [Int.toNat_of_nonneg ha.le, Int.toNat_of_nonneg hb.le]
      exact_mod_cast hcast ▸ h
    · rw [Int.toNat_of_nonpos (not_lt.mp hb)]
      simp
  · rw [Int.toNat_of_nonpos (not_lt.mp ha)]
    simp

/-- The final record carries the dimensions it was built with, unless it is
the empty result. -/
theorem kdeMain_dims (pm : List MPoint) (bandwidth cellSize : ℝ)
    (pb : Option ParsedBoundary) (e : Extent) (gridWidth gridHeight : ℕ) :
    ((kdeMain pm bandwidth cellSize pb e gridWidth gridHeight).width = gridWidth ∧
     (kdeMain pm bandwidth cellSize pb e gridWidth gridHeight).height = gridHeight) ∨
    kdeMain pm bandwidth cellSize pb e gridWidth gridHeight = emptyKDE := by
  simp only [kdeMain]
  split_ifs
  · right; rfl
  · left; exact ⟨rfl, rfl⟩

/-- C1 (amended): the engine rescales `cellSize` by
`sqrt((width × height) / 500000)` and restarts; a restart can be needed more
than once (see the counterexample), but every result the engine returns —
with any fuel — satisfies `width * height ≤ 500000`. -/
theorem kde_result_within_cap (fuel : ℕ) (points : List WPoint)
    (bandwidth cellSize : ℝ) (boundary : Option GeoJSON) (r : KDEResult)
    (h : calculateWeightedKDE fuel points bandwidth cellSize boundary = some r) :
    r.width * r.height ≤ 500000 := by
  induction fuel generalizing cellSize with
  | zero => simp [calculateWeightedKDE] at h
  | succ fuel ih =>
    simp only [calculateWeightedKDE] at h
    split_ifs at h with hpe hve hguard
    · cases Option.some.inj h; simp [emptyKDE]
    · cases Option.some.inj h; simp [emptyKDE]
    · exact ih _ h
    · cases Option.some.inj h
      rcases kdeMain_dims _ _ _ _ _ _ _ with ⟨hw, hh⟩ | hempty
      · rw [hw, hh]
        apply toNat_mul_le_of_mul_le
        have := not_lt.mp hguard
        simpa [MAX_CELLS] using this
      · rw [hempty]
        simp [emptyKDE]

/-- Witness for `kde_result_within_cap`: the empty input returns the empty
grid, whose `0 × 0` cells fit the cap. -/
theorem kde_result_within_cap_witness :
    emptyKDE.width * emptyKDE.height ≤ 500000 :=
  kde_result_within_cap 1 [] 1 1 none emptyKDE (by simp [calculateWeightedKDE])

end PGIS
